import Mathlib

/-!
Verification development for the Content Forge bot (`src/main.py`), a chat bot
that scrapes a product page, generates four platform-specific pieces of sales
copy via a generative-text service, holds the parsed draft in a per-session
store, and on approval posts a consolidated text to a distribution service.

Text is modeled as `List Char`.  Python string primitives used by the source
(`str.find` with its `-1` failure value, slicing with a possibly negative end
index, `strip`, `split`/`join`, substring membership) are embedded faithfully
below.  Each external collaborator (page fetch + markup query, generative
service, distribution transport) is a parameter of the embedded function, and
the embedded handlers additionally record the arguments of every call they
make to a collaborator, so that claims of the form "never calls X" are
statable.
-/

/-- `needle.isPrefixOf hay` decided at every position from `i` on: the model of
the scanning loop inside Python `str.find(sub, start)`.  Returns the first
index (the absolute index, threaded through `i`) at which `needle` occurs. -/
def findSubAux (needle : List Char) : List Char → Nat → Option Nat
  | [], i => if needle.isEmpty then some i else none
  | c :: t, i => if needle.isPrefixOf (c :: t) then some i else findSubAux needle t (i + 1)

/-- Python `hay.find(needle, start)`: index of the first occurrence of `needle`
at or after `start`, and `-1` when there is none. -/
def pyFind (hay needle : List Char) (start : Nat) : Int :=
  match findSubAux needle (hay.drop start) start with
  | some i => (i : Int)
  | none => -1

/-- Python slice `s[a:b]` for a nonnegative start `a` and an `Int` end `b`
(negative `b` counts from the end of the string, clamped at `0`). -/
def pySlice (s : List Char) (a : Nat) (b : Int) : List Char :=
  (s.take (if b < 0 then s.length - min s.length b.natAbs else min b.toNat s.length)).drop a

/-- Python `s.strip()`: remove leading and trailing whitespace. -/
def stripChars (s : List Char) : List Char :=
  ((s.dropWhile Char.isWhitespace).reverse.dropWhile Char.isWhitespace).reverse

/-- Accumulator worker for Python `s.split()`: split on whitespace runs,
producing no empty words.  `acc` holds the current word reversed. -/
def splitWsAux : List Char → List Char → List (List Char)
  | [], acc => if acc.isEmpty then [] else [acc.reverse]
  | c :: t, acc =>
    if c.isWhitespace then
      if acc.isEmpty then splitWsAux t [] else acc.reverse :: splitWsAux t []
    else splitWsAux t (c :: acc)

/-- Python `s.split()` with no separator argument. -/
def splitWs (s : List Char) : List (List Char) :=
  splitWsAux s []

/-- Python `' '.join(ws)`: concatenate the words with a single space between
consecutive words. -/
def joinSpace : List (List Char) → List Char
  | [] => []
  | [w] => w
  | w :: x :: t => w ++ ' ' :: joinSpace (x :: t)

/-- Python `' '.join(s.split())`: collapse every whitespace run to one space
and drop leading/trailing whitespace. -/
def collapseWs (s : List Char) : List Char :=
  joinSpace (splitWs s)

/-- Python `needle in hay` on strings (substring containment). -/
def containsSub (hay needle : List Char) : Bool :=
  (findSubAux needle hay 0).isSome

/-- Python `d.get(k, '')` on the parsed platform-to-copy mapping. -/
def dictGet (d : List (String × List Char)) (k : String) : List Char :=
  match d.lookup k with
  | some v => v
  | none => []

/-! ## Data model -/

/-- `ProductDetails` as built by `scrape_product_details` (src/main.py:58-62). -/
structure ProductDetails where
  url : List Char
  title : List Char
  description : List Char
deriving DecidableEq

/-- The parsed platform-to-copy mapping (`content_dict` in the source), an
insertion-ordered association list exactly like a Python `dict` over the four
fixed platform keys. -/
def ContentDict : Type := List (String × List Char)

instance : DecidableEq ContentDict := inferInstanceAs (DecidableEq (List (String × List Char)))

instance : Membership (String × List Char) ContentDict := inferInstanceAs (Membership _ (List _))

/-- The view the scraper has of the fetched page after the two markup queries
of src/main.py:51-52: the text of the first heading-level-1 element, when one
exists, and the text of the first block element whose class contains
"description" or "details", when one exists.  The markup-parsing library is an
external collaborator, so its two query results are the inputs of the model. -/
structure SoupView where
  h1Text : Option (List Char)
  descText : Option (List Char)

/-- The process-wide draft store `user_draft_content` (src/main.py:33):
a mapping from chat-user id to the most recent generated `ContentDict`. -/
def DraftStore : Type := Nat → Option ContentDict

/-- Model of `user_draft_content[user_id] = generated_dict`
(src/main.py:223): unconditional overwrite of the session's entry. -/
def put (st : DraftStore) (s : Nat) (m : ContentDict) : DraftStore :=
  fun t => if t = s then some m else st t

/-- Model of the membership check plus `user_draft_content.pop(user_id)`
(src/main.py:243-247): remove and return the entry, or `none` when absent. -/
def take (st : DraftStore) (s : Nat) : Option ContentDict × DraftStore :=
  match st s with
  | none => (none, st)
  | some m => (some m, fun t => if t = s then none else st t)

/-! ## Extractor (`scrape_product_details`, src/main.py:39-69)

The network fetch either raises (the function then returns `None`; that path
is represented at the controller boundary by a `scrape` parameter returning
`none`) or delivers markup, whose two relevant query results form a
`SoupView`.  The parsing logic of lines 51-62 is embedded here. -/

def titleSentinel : List Char := "Product Title Not Found".data

def descSentinel : List Char := "Description Not Found".data

/-- Lines 51-62 of src/main.py: derive title and description from the two
markup query results, falling back to the documented sentinel strings, then
collapse whitespace and truncate the description to 2000 characters. -/
def scrape_product_details (url : List Char) (soup : SoupView) : ProductDetails :=
  { url := url
    title := match soup.h1Text with
      | some t => stripChars t
      | none => titleSentinel
    description := (collapseWs (match soup.descText with
      | some d => stripChars d
      | none => descSentinel)).take 2000 }

/-! ## Copy Generator (`generate_sales_copy`, src/main.py:71-137) -/

/-- The header sigil `"## "` scanned for as the end tag of every platform
section except the last (src/main.py:116). -/
def sharps : List Char := "## ".data

/-- The `platforms` list of src/main.py:112, in its fixed order. -/
def platforms : List String := ["Facebook", "X (Twitter)", "LinkedIn", "Pinterest"]

/-- `start_tag = f"## {platform}"` (src/main.py:115). -/
def startTagOf (platform : String) : List Char :=
  ("## " ++ platform).data

/-- The loop body of src/main.py:114-128 for one platform: find the header,
and when present take the span from just after the header to the next `"## "`
(to the end of the text for Pinterest), stripped.  Mirrors the source exactly,
including `find`'s `-1` flowing into the slice end when no `"## "` follows. -/
def parsePlatform (raw : List Char) (platform : String) : Option (List Char) :=
  if pyFind raw (startTagOf platform) 0 = -1 then none
  else
    some (stripChars (pySlice raw
      ((pyFind raw (startTagOf platform) 0).toNat + (startTagOf platform).length)
      (if platform = "Pinterest" then (raw.length : Int)
        else pyFind raw sharps
          ((pyFind raw (startTagOf platform) 0).toNat + (startTagOf platform).length))))

/-- The whole parsing loop of src/main.py:111-128: build the platform-to-copy
mapping in platform order, silently omitting platforms whose header is
absent. -/
def parseSections (raw : List Char) : ContentDict :=
  platforms.filterMap fun p => (parsePlatform raw p).map fun c => (p, c)

/-- Outcome of the one generative-service call (external collaborator):
either a raw text, a typed API error, or any other exception. -/
inductive GenOutcome where
  | ok (text : List Char)
  | apiError (e : List Char)
  | otherError

/-- `generate_sales_copy` (src/main.py:71-137) given the client-availability
flag and the service outcome: returns the pair `(message-or-raw-text,
optional parsed mapping)` exactly as the source does on each path. -/
def generate_sales_copy (clientOk : Bool) (outcome : GenOutcome) :
    List Char × Option ContentDict :=
  if !clientOk then ("Gemini client not initialized. Check API Key.".data, none)
  else
    match outcome with
    | .ok raw => (raw, some (parseSections raw))
    | .apiError e => ("Gemini API Error: Could not generate content. ".data ++ e, none)
    | .otherError => ("An unexpected error occurred during content generation.".data, none)

/-! ## Distributor (`distribute_content_socialbu`, src/main.py:140-172) -/

/-- The payload dict of src/main.py:148-154. -/
structure SocialBuPayload where
  api_key : List Char
  content : List Char
  platform_ids : List Nat
  schedule_time : List Char
  media_urls : List (List Char)
deriving DecidableEq

/-- Lines 148-154 of src/main.py: the consolidated post payload built from an
approved mapping. -/
def buildPayload (apiKey : List Char) (d : ContentDict) : SocialBuPayload :=
  { api_key := apiKey
    content := "Multi-platform content generated by Content Forge Bot:\n\n".data
      ++ dictGet d "Facebook" ++ "\n\n".data ++ dictGet d "X (Twitter)"
    platform_ids := [123, 456, 789]
    schedule_time := "now".data
    media_urls := [] }

/-- The distribution service's parsed JSON body, as read by the source with
`.get('status')`, `.get('message', 'Unknown error')` and
`.get('data', {}).get('post_id')`. -/
structure SbResponse where
  status : Option (List Char)
  message : Option (List Char)
  post_id : Option Nat

/-- Outcome of the one distribution POST (external collaborator): a parsed
response, a transport-level error (`requests.exceptions.RequestException`,
which also covers the `raise_for_status` path), or any other exception. -/
inductive TransportOutcome where
  | ok (resp : SbResponse)
  | requestError (e : List Char)
  | otherError

/-- Rendering of the optional post id inside the Python f-string: a number
renders as its decimal digits and an absent id renders as `None`. -/
def renderPostId : Option Nat → List Char
  | some n => (Nat.repr n).data
  | none => "None".data

/-- Python truthiness of `SOCIALBU_API_KEY` in `if not SOCIALBU_API_KEY`
(src/main.py:142): an unset variable (`none`) and an empty string are both
falsy. -/
def keyMissing : Option (List Char) → Bool
  | none => true
  | some s => s.isEmpty

def missingKeyMsg : List Char := "SocialBu API Key is missing. Distribution failed.".data

def successMsgOf (postId : Option Nat) : List Char :=
  "Content successfully distributed via SocialBu! (Post ID: ".data
    ++ renderPostId postId ++ ").".data

def serviceErrorMsgOf (m : Option (List Char)) : List Char :=
  "SocialBu API reported an error: ".data ++ m.getD "Unknown error".data

def networkFailPrefixMsg : List Char := "Distribution failed due to network/API error: ".data

def unexpectedDistMsg : List Char := "An unexpected error occurred during distribution.".data

/-- `distribute_content_socialbu` (src/main.py:140-172).  The second component
records the payload of every POST actually issued, so that "no network call"
is statable.  The embedding is a total function: every path of the source
returns a message and no exception escapes. -/
def distribute_content_socialbu (apiKey : Option (List Char))
    (transport : SocialBuPayload → TransportOutcome) (d : ContentDict) :
    List Char × List SocialBuPayload :=
  if keyMissing apiKey then (missingKeyMsg, [])
  else
    let payload := buildPayload (apiKey.getD []) d
    match transport payload with
    | .ok resp =>
      if resp.status = some "success".data then (successMsgOf resp.post_id, [payload])
      else (serviceErrorMsgOf resp.message, [payload])
    | .requestError e => (networkFailPrefixMsg ++ e, [payload])
    | .otherError => (unexpectedDistMsg, [payload])

/-! ## Session Controller (`url_message` and `approve_command`,
src/main.py:196-254) -/

def invalidUrlMsg : List Char :=
  "That doesn\x27t look like a valid URL. Please send a full product link (e.g., https://example.com/product).".data

def urlReceivedMsg : List Char :=
  "🔍 URL received. Starting scraping and content generation with Gemini AI... This may take a moment.".data

def scrapeFailedMsg : List Char :=
  "❌ Failed to scrape product details from the URL. Please check the link or try a different one.".data

def genFailedMsgOf (detail : List Char) : List Char :=
  "❌ Content generation failed: ".data ++ detail

/-- The `response_text` f-string of src/main.py:226-234. -/
def draftReadyMsgOf (pd : ProductDetails) (raw : List Char) : List Char :=
  "✅ **Content Draft Ready!**\n\n**Product:** ".data ++ pd.title
    ++ "\n**Source:** ".data ++ pd.url
    ++ "\n\n--- **Review Content** ---\n\n".data ++ raw
    ++ "\n\n--- **Action** ---\n\n".data
    ++ "Review the content above. If it is ready to be published, use the command **\x60/approve\x60** to post it now!".data

def noDraftMsg : List Char :=
  "There is no content waiting for approval. Please send a new product URL first to generate content.".data

def approvalReceivedMsg : List Char :=
  "🚀 Approval received! Initiating distribution to all social media platforms via SocialBu API...".data

def distStatusMsgOf (result : List Char) : List Char :=
  "**Distribution Status:**\n\n".data ++ result

/-- What one run of the `url_message` handler did: the replies sent in order,
the draft store afterwards, and the arguments of every call made to the
extractor and to the copy generator. -/
structure UrlResult where
  replies : List (List Char)
  store : DraftStore
  scrapeCalls : List (List Char)
  genCalls : List ProductDetails

/-- `url_message` (src/main.py:196-236), with the extractor and the copy
generator as parameters.  `scrape` returning `none` is the source's
scrape-failure path; `generate` returning `(msg, none)` is its generation
failure.  Note the two source subtleties kept here: a scrape result whose
description contains `'Description Not Found'` is treated like a failed
scrape (line 211), and `if not generated_dict` (line 218) is also true for an
empty dict. -/
def url_message (scrape : List Char → Option ProductDetails)
    (generate : ProductDetails → List Char × Option ContentDict)
    (st : DraftStore) (user : Nat) (text : List Char) : UrlResult :=
  if !("http".data.isPrefixOf text) then
    { replies := [invalidUrlMsg], store := st, scrapeCalls := [], genCalls := [] }
  else
    match scrape text with
    | none =>
      { replies := [urlReceivedMsg, scrapeFailedMsg], store := st
        scrapeCalls := [text], genCalls := [] }
    | some pd =>
      if containsSub pd.description descSentinel then
        { replies := [urlReceivedMsg, scrapeFailedMsg], store := st
          scrapeCalls := [text], genCalls := [] }
      else
        match generate pd with
        | (md, none) =>
          { replies := [urlReceivedMsg, genFailedMsgOf md], store := st
            scrapeCalls := [text], genCalls := [pd] }
        | (md, some d) =>
          if d.isEmpty then
            { replies := [urlReceivedMsg, genFailedMsgOf md], store := st
              scrapeCalls := [text], genCalls := [pd] }
          else
            { replies := [urlReceivedMsg, draftReadyMsgOf pd md]
              store := put st user d, scrapeCalls := [text], genCalls := [pd] }

/-- What one run of the `approve_command` handler did: replies in order, the
store afterwards, and the argument of every call made to the distributor. -/
structure ApproveResult where
  replies : List (List Char)
  store : DraftStore
  distCalls : List ContentDict

/-- `approve_command` (src/main.py:239-254), with the distributor as a
parameter.  The membership test plus `pop` of lines 243-247 is the draft
store's `take`. -/
def approve_command (distribute : ContentDict → List Char)
    (st : DraftStore) (user : Nat) : ApproveResult :=
  match take st user with
  | (none, _) => { replies := [noDraftMsg], store := st, distCalls := [] }
  | (some d, st2) =>
    let result := distribute d
    { replies := [approvalReceivedMsg, distStatusMsgOf result], store := st2
      distCalls := [d] }

/-! ## Proof-support definitions -/

/-- `needle` fails to match at position `i` of `x` for a reason visible inside
`x` itself: some compared character lies inside `x` and differs.  Such a
mismatch is independent of whatever text follows `x`. -/
def mismatchWithin (needle x : List Char) (i : Nat) : Bool :=
  (List.range needle.length).any fun j =>
    decide (i + j < x.length) && decide (x[i + j]? ≠ needle[j]?)

/-- The body of a parsed section: the sigil `"## "` occurs at no position of
`s`.  This is the side condition under which a section body can be recovered
verbatim by the ordered header scan of `parseSections`. -/
def NoSharps (s : List Char) : Prop :=
  ∀ i < s.length, ¬ sharps <+: s.drop i

instance (s : List Char) : Decidable (NoSharps s) :=
  inferInstanceAs (Decidable (∀ i < s.length, ¬ sharps <+: s.drop i))

/-- `s` is in collapsed form: every whitespace character of `s` is a plain
space, and no space is followed by further whitespace, i.e. all whitespace
runs have been collapsed to single spaces. -/
def collapsedOk : List Char → Bool
  | [] => true
  | [c] => !c.isWhitespace || c == ' '
  | a :: b :: t => (!a.isWhitespace || (a == ' ' && !b.isWhitespace)) && collapsedOk (b :: t)

/-! ## Helper lemmas: the scanning model of `str.find` -/

theorem prefixOf_correct {l m : List Char} : l.isPrefixOf m = true ↔ l <+: m :=
  List.isPrefixOf_iff_prefix

theorem IsPrefix_getElem? {l m : List Char} (h : l <+: m) {i : Nat}
    (hi : i < l.length) : m[i]? = l[i]? := by
  obtain ⟨t, rfl⟩ := h
  exact List.getElem?_append_left hi

theorem not_prefix_of_mismatch {needle x : List Char} {i : Nat} (Q : List Char)
    (hm : mismatchWithin needle x i = true) : ¬ needle <+: (x ++ Q).drop i := by
  intro hp
  obtain ⟨j, hjmem, hj⟩ := List.any_eq_true.mp hm
  rw [List.mem_range] at hjmem
  rw [Bool.and_eq_true, decide_eq_true_iff, decide_eq_true_iff] at hj
  obtain ⟨hlt, hne⟩ := hj
  apply hne
  have h1 : ((x ++ Q).drop i)[j]? = needle[j]? := IsPrefix_getElem? hp hjmem
  rw [List.getElem?_drop] at h1
  rw [List.getElem?_append_left hlt] at h1
  exact h1

theorem not_prefix_via_sharps {needle : List Char} (hs : sharps <+: needle)
    {l : List Char} (h : ¬ sharps <+: l) : ¬ needle <+: l :=
  fun hp => h (hs.trans hp)

theorem header_block_no_occ (needle h Q : List Char)
    (hs : sharps <+: needle)
    (h0 : mismatchWithin needle h 0 = true)
    (hi : ∀ i < h.length, 0 < i → mismatchWithin sharps h i = true) :
    ∀ i < h.length, ¬ needle <+: ((h ++ Q).drop i) := by
  intro i hil
  rcases Nat.eq_zero_or_pos i with rfl | hpos
  · exact not_prefix_of_mismatch Q h0
  · exact not_prefix_via_sharps hs (not_prefix_of_mismatch Q (hi i hil hpos))

theorem prefix_of_append_left {n x y : List Char} (h : n <+: x ++ y)
    (hl : n.length ≤ x.length) : n <+: x := by
  rw [List.prefix_iff_eq_take] at h
  rw [List.take_append_eq_append_take, Nat.sub_eq_zero_of_le hl, List.take_zero,
    List.append_nil] at h
  rw [List.prefix_iff_eq_take]
  exact h

theorem body_block_no_occ (needle A Q : List Char)
    (hs : sharps <+: needle) (hA : NoSharps A) (hq : sharps <+: Q) :
    ∀ i < A.length, ¬ needle <+: ((A ++ Q).drop i) := by
  intro i hi
  refine not_prefix_via_sharps hs ?_
  intro hp
  have hdrop : (A ++ Q).drop i = A.drop i ++ Q := by
    rw [List.drop_append_eq_append_drop, Nat.sub_eq_zero_of_le (le_of_lt hi), List.drop_zero]
  rw [hdrop] at hp
  have hlen3 : sharps.length = 3 := by decide
  by_cases hlen : i + 3 ≤ A.length
  · apply hA i hi
    apply prefix_of_append_left hp
    rw [List.length_drop]
    omega
  · have h2 : (A.drop i ++ Q)[2]? = sharps[2]? := IsPrefix_getElem? hp (by omega)
    have hge : (A.drop i).length ≤ 2 := by
      rw [List.length_drop]; omega
    rw [List.getElem?_append_right hge] at h2
    have hq0 : Q[0]? = some '#' := by
      have h0 := IsPrefix_getElem? hq (show (0 : Nat) < sharps.length by omega)
      rw [show (sharps[0]? : Option Char) = some '#' from by decide] at h0
      exact h0
    have hq1 : Q[1]? = some '#' := by
      have h1 := IsPrefix_getElem? hq (show (1 : Nat) < sharps.length by omega)
      rw [show (sharps[1]? : Option Char) = some '#' from by decide] at h1
      exact h1
    rw [show (sharps[2]? : Option Char) = some ' ' from by decide] at h2
    have hk : 2 - (A.drop i).length = 0 ∨ 2 - (A.drop i).length = 1 := by
      rw [List.length_drop]; omega
    rcases hk with hk | hk <;> rw [hk] at h2
    · rw [hq0] at h2
      exact absurd h2 (by decide)
    · rw [hq1] at h2
      exact absurd h2 (by decide)

theorem findSubAux_of_here (needle l : List Char) (k : Nat)
    (h : needle <+: l) : findSubAux needle l k = some k := by
  cases l with
  | nil =>
    have hn : needle = [] := List.prefix_nil.mp h
    simp [findSubAux, hn]
  | cons c t =>
    have hb : needle.isPrefixOf (c :: t) = true := prefixOf_correct.mpr h
    simp [findSubAux, hb]

theorem findSubAux_eq (needle : List Char) (X : List Char) (k n : Nat)
    (hocc : ∀ i < n, ¬ needle <+: (X.drop i))
    (hat : needle <+: X.drop n) :
    findSubAux needle X k = some (k + n) := by
  induction n generalizing X k with
  | zero =>
    rw [List.drop_zero] at hat
    rw [Nat.add_zero]
    exact findSubAux_of_here needle X k hat
  | succ m ih =>
    cases X with
    | nil =>
      exfalso
      apply hocc 0 (Nat.succ_pos m)
      rw [List.drop_nil] at hat
      rw [List.drop_zero]
      exact hat
    | cons c t =>
      have h0 : needle.isPrefixOf (c :: t) = false := by
        rw [Bool.eq_false_iff]
        intro hb
        exact hocc 0 (Nat.succ_pos m) (by rw [List.drop_zero]; exact prefixOf_correct.mp hb)
      rw [show findSubAux needle (c :: t) k
          = if needle.isPrefixOf (c :: t) then some k else findSubAux needle t (k + 1) from rfl]
      rw [h0]
      simp only [Bool.false_eq_true, if_false]
      have hocc2 : ∀ i < m, ¬ needle <+: (t.drop i) := fun i hi =>
        hocc (i + 1) (by omega)
      have hat2 : needle <+: t.drop m := hat
      rw [ih t (k + 1) hocc2 hat2]
      congr 1
      omega

theorem pyFind_eq (X needle : List Char) (s n : Nat) (hs : s ≤ n)
    (hocc : ∀ i, s ≤ i → i < n → ¬ needle <+: (X.drop i))
    (hat : needle <+: X.drop n) :
    pyFind X needle s = (n : Int) := by
  unfold pyFind
  have hocc2 : ∀ i < n - s, ¬ needle <+: ((X.drop s).drop i) := by
    intro i hi
    rw [List.drop_drop]
    apply hocc <;> omega
  have hat2 : needle <+: (X.drop s).drop (n - s) := by
    rw [List.drop_drop]
    rw [show s + (n - s) = n by omega]
    exact hat
  rw [findSubAux_eq needle (X.drop s) s (n - s) hocc2 hat2]
  show ((s + (n - s) : Nat) : Int) = (n : Int)
  omega

theorem pyFind_none (X needle : List Char) (s : Nat)
    (hocc : ∀ i, ¬ needle <+: (X.drop i)) :
    pyFind X needle s = -1 := by
  unfold pyFind
  have : ∀ (l : List Char) (k : Nat), (∀ i, ¬ needle <+: (l.drop i)) →
      findSubAux needle l k = none := by
    intro l
    induction l with
    | nil =>
      intro k hl
      have : ¬ needle.isEmpty = true := by
        intro hb
        exact hl 0 (by
          rw [List.drop_zero, List.isEmpty_iff.mp hb])
      simp only [findSubAux]
      rw [if_neg this]
    | cons c t ih =>
      intro k hl
      have h0 : needle.isPrefixOf (c :: t) = false := by
        rw [Bool.eq_false_iff]
        intro hb
        exact hl 0 (by rw [List.drop_zero]; exact prefixOf_correct.mp hb)
      rw [show findSubAux needle (c :: t) k
          = if needle.isPrefixOf (c :: t) then some k else findSubAux needle t (k + 1) from rfl]
      rw [h0]
      simp only [Bool.false_eq_true, if_false]
      exact ih (k + 1) (fun i => by
        have := hl (i + 1)
        rwa [List.drop_succ_cons] at this)
  rw [this (X.drop s) s (fun i => by rw [List.drop_drop]; apply hocc)]

theorem no_occ_range (needle P Q : List Char) (m : Nat)
    (h : ∀ i < m, ¬ needle <+: (Q.drop i)) :
    ∀ i, P.length ≤ i → i < P.length + m → ¬ needle <+: ((P ++ Q).drop i) := by
  intro i h1 h2
  have hi : i = P.length + (i - P.length) := by omega
  rw [hi, List.drop_append]
  exact h _ (by omega)

theorem no_occ_cat (needle X : List Char) (n m : Nat)
    (h1 : ∀ i < n, ¬ needle <+: (X.drop i))
    (h2 : ∀ i, n ≤ i → i < m → ¬ needle <+: (X.drop i)) :
    ∀ i < m, ¬ needle <+: (X.drop i) := by
  intro i hi
  by_cases h : i < n
  · exact h1 i h
  · exact h2 i (by omega) hi

theorem findSubAux_isSome_of_occ (needle l : List Char) (k i : Nat)
    (h : needle <+: l.drop i) : (findSubAux needle l k).isSome = true := by
  induction i generalizing l k with
  | zero =>
    rw [List.drop_zero] at h
    rw [findSubAux_of_here needle l k h]
    rfl
  | succ m ih =>
    cases l with
    | nil =>
      rw [List.drop_nil] at h
      rw [findSubAux_of_here needle [] k (h.trans List.nil_prefix)]
      rfl
    | cons c t =>
      rw [List.drop_succ_cons] at h
      rw [show findSubAux needle (c :: t) k
          = if needle.isPrefixOf (c :: t) then some k else findSubAux needle t (k + 1) from rfl]
      by_cases hb : needle.isPrefixOf (c :: t) = true
      · rw [hb]
        rfl
      · rw [Bool.eq_false_iff.mpr hb]
        simp only [Bool.false_eq_true, if_false]
        exact ih t (k + 1) h

theorem containsSub_mid (P needle R : List Char) :
    containsSub (P ++ (needle ++ R)) needle = true := by
  unfold containsSub
  apply findSubAux_isSome_of_occ needle (P ++ (needle ++ R)) 0 P.length
  rw [List.drop_left]
  exact List.prefix_append needle R

theorem containsSub_suffix (P needle : List Char) :
    containsSub (P ++ needle) needle = true := by
  have h := containsSub_mid P needle []
  rwa [List.append_nil] at h

theorem pySlice_mid (P X R : List Char) :
    pySlice (P ++ (X ++ R)) P.length (((P.length + X.length : Nat) : Int)) = X := by
  unfold pySlice
  have hb : ¬ (((P.length + X.length : Nat) : Int) < 0) := by omega
  rw [if_neg hb]
  rw [show (((P.length + X.length : Nat) : Int)).toNat = P.length + X.length from by omega]
  have hlen : (P ++ (X ++ R)).length = P.length + X.length + R.length := by
    simp [List.length_append]
    omega
  rw [hlen]
  rw [min_eq_left (by omega)]
  rw [← List.append_assoc]
  rw [List.take_left' (by rw [List.length_append])]
  rw [List.drop_left]

theorem pySlice_to_end (P X : List Char) :
    pySlice (P ++ X) P.length (((P ++ X).length : Nat) : Int) = X := by
  unfold pySlice
  have hb : ¬ ((((P ++ X).length : Nat) : Int) < 0) := by omega
  rw [if_neg hb]
  rw [show ((((P ++ X).length : Nat) : Int)).toNat = (P ++ X).length from by omega]
  rw [min_self]
  rw [List.take_length]
  rw [List.drop_left]

/-! ## Claim theorems -/

/-- C3: for every session `s` and maps `m1`, `m2`, a `put s m1` followed by
`put s m2` followed by `take s` yields exactly `m2` (no merge of `m1` and
`m2`); `take s` with no prior `put` for `s` (the entry is absent) yields the
not-found result; and a `take s` immediately followed by another `take s`
yields not-found the second time, so a stored draft is consumed at most
once. -/
theorem draft_store_contract (st : DraftStore) (s : Nat) (m1 m2 : ContentDict)
    (h : st s = none) :
    (take (put (put st s m1) s m2) s).1 = some m2
    ∧ (take st s).1 = none
    ∧ ∀ st2 : DraftStore, (take (take st2 s).2 s).1 = none := by
  refine ⟨?_, ?_, ?_⟩
  · simp [take, put]
  · simp [take, h]
  · intro st2
    cases h2 : st2 s with
    | none => simp [take, h2]
    | some m => simp [take, h2]

theorem draft_store_contract_witness :
    ((fun _ => none : DraftStore) 0 = none)
    ∧ (take (put (put (fun _ => none) 0 [("Facebook", "A".data)]) 0
        [("Facebook", "B".data)]) 0).1 = some [("Facebook", "B".data)]
    ∧ (take (fun _ => none : DraftStore) 0).1 = none := by
  have h := draft_store_contract (fun _ => none) 0
    [("Facebook", "A".data)] [("Facebook", "B".data)] rfl
  exact ⟨rfl, h.1, h.2.1⟩

/-- C4: for every session whose draft-store entry is absent, the approval
handler replies that there is nothing to approve and never invokes the
distribution function (its call list is empty), and the store is left
unchanged. -/
theorem approve_without_draft (dist : ContentDict → List Char)
    (st : DraftStore) (user : Nat) (h : st user = none) :
    (approve_command dist st user).replies = [noDraftMsg]
    ∧ (approve_command dist st user).distCalls = []
    ∧ (approve_command dist st user).store = st := by
  unfold approve_command take
  rw [h]
  exact ⟨rfl, rfl, rfl⟩

theorem approve_without_draft_witness :
    ((fun _ => none : DraftStore) 0 = none)
    ∧ (approve_command (fun _ => []) (fun _ => none) 0).replies = [noDraftMsg]
    ∧ (approve_command (fun _ => []) (fun _ => none) 0).distCalls = [] := by
  have h := approve_without_draft (fun _ => []) (fun _ => none) 0 rfl
  exact ⟨rfl, h.1, h.2.1⟩

/-- C9: for every incoming free-text message that does not start with
`http`, the handler replies with the validation message only, calls neither
the extractor nor the generator, and returns the draft store unchanged for
every session. -/
theorem non_http_rejected (scrape : List Char → Option ProductDetails)
    (generate : ProductDetails → List Char × Option ContentDict)
    (st : DraftStore) (user : Nat) (text : List Char)
    (h : "http".data.isPrefixOf text = false) :
    url_message scrape generate st user text
      = { replies := [invalidUrlMsg], store := st, scrapeCalls := [], genCalls := [] } := by
  unfold url_message
  rw [h]
  rfl

theorem non_http_rejected_witness :
    ("http".data.isPrefixOf "hello there".data = false)
    ∧ (url_message (fun _ => none) (fun _ => ([], none)) (fun _ => none) 0 "hello there".data
        = { replies := [invalidUrlMsg], store := fun _ => none, scrapeCalls := [], genCalls := [] }) := by
  refine ⟨by decide, ?_⟩
  exact non_http_rejected (fun _ => none) (fun _ => ([], none)) (fun _ => none) 0
    "hello there".data (by decide)

/-- C5 (amended): for every incoming URL message on which extraction succeeds
AND the extracted description does not contain the sentinel
`'Description Not Found'`, the controller runs the Copy Generator; and
whenever generation then succeeds with a (non-empty) mapping, the controller
stores that mapping as the session's draft — the draft-pending state — leaves
every other session untouched, and replies with the full rendered draft plus
the approval prompt.  (As stated the claim is false: see the counterexample —
a successful extraction whose description is the sentinel never reaches the
generator, because src/main.py:211 treats it like a failed scrape; and an
empty mapping is falsy at line 218, consistent with claim C10.) -/
theorem url_flow_success (scrape : List Char → Option ProductDetails)
    (generate : ProductDetails → List Char × Option ContentDict)
    (st : DraftStore) (user : Nat) (text : List Char)
    (pd : ProductDetails) (raw : List Char) (d : ContentDict)
    (hhttp : "http".data.isPrefixOf text = true)
    (hs : scrape text = some pd)
    (hns : containsSub pd.description descSentinel = false)
    (hg : generate pd = (raw, some d))
    (hne : d.isEmpty = false) :
    (url_message scrape generate st user text).genCalls = [pd]
    ∧ (url_message scrape generate st user text).store user = some d
    ∧ (∀ t, t ≠ user → (url_message scrape generate st user text).store t = st t)
    ∧ (url_message scrape generate st user text).replies
        = [urlReceivedMsg, draftReadyMsgOf pd raw] := by
  have hrun : url_message scrape generate st user text
      = { replies := [urlReceivedMsg, draftReadyMsgOf pd raw]
          store := put st user d, scrapeCalls := [text], genCalls := [pd] } := by
    unfold url_message
    simp only [hhttp, Bool.not_true, Bool.false_eq_true, if_false, hs, hns, hg, hne]
  rw [hrun]
  refine ⟨rfl, ?_, ?_, rfl⟩
  · simp [put]
  · intro t ht
    simp [put, ht]

/-- C5 counterexample: a page with a heading but no description element.
Extraction succeeds (it returns a `ProductDetails` value, with the sentinel
description), yet the Copy Generator is never invoked, refuting the claim
that every successful extraction runs the generator. -/
theorem url_flow_counterexample :
    ((fun u => some (scrape_product_details u ⟨some "Widget".data, none⟩))
        "http://example.com/product".data
      = some { url := "http://example.com/product".data, title := "Widget".data
               description := descSentinel })
    ∧ (url_message (fun u => some (scrape_product_details u ⟨some "Widget".data, none⟩))
        (fun _ => ("## Facebook\nGreat".data, some [("Facebook", "Great".data)]))
        (fun _ => none) 0 "http://example.com/product".data).genCalls = [] := by
  constructor
  · decide
  · decide

theorem url_flow_success_witness :
    ("http".data.isPrefixOf "http://x".data = true)
    ∧ (containsSub "Desc".data descSentinel = false)
    ∧ (([("Facebook", "F".data)] : ContentDict).isEmpty = false)
    ∧ (url_message (fun _ => some ⟨"http://x".data, "T".data, "Desc".data⟩)
        (fun _ => ("RAW".data, some [("Facebook", "F".data)]))
        (fun _ => none) 0 "http://x".data).store 0 = some [("Facebook", "F".data)] := by
  refine ⟨by decide, by decide, by decide, ?_⟩
  exact (url_flow_success (fun _ => some ⟨"http://x".data, "T".data, "Desc".data⟩)
    (fun _ => ("RAW".data, some [("Facebook", "F".data)])) (fun _ => none) 0
    "http://x".data ⟨"http://x".data, "T".data, "Desc".data⟩ "RAW".data
    [("Facebook", "F".data)] (by decide) rfl (by decide) rfl (by decide)).2.1

/-- C10: when the generative service succeeds but its raw text contains none
of the four platform headers, the generator returns an empty mapping and no
error, yet the controller treats the empty (falsy) mapping as a generation
failure: it replies with the failure message whose detail is the entire raw
generated text, and stores no draft (the store is unchanged). -/
theorem empty_headers_generation_failure
    (scrape : List Char → Option ProductDetails) (st : DraftStore) (user : Nat)
    (text raw : List Char) (pd : ProductDetails)
    (hhttp : "http".data.isPrefixOf text = true)
    (hs : scrape text = some pd)
    (hns : containsSub pd.description descSentinel = false)
    (hraw : ∀ p ∈ platforms, pyFind raw (startTagOf p) 0 = -1) :
    (generate_sales_copy true (.ok raw)).2 = some ([] : ContentDict)
    ∧ (url_message scrape (fun _ => generate_sales_copy true (.ok raw)) st user text).replies
        = [urlReceivedMsg, genFailedMsgOf raw]
    ∧ (url_message scrape (fun _ => generate_sales_copy true (.ok raw)) st user text).store
        = st := by
  have hparse : parseSections raw = [] := by
    unfold parseSections
    rw [List.filterMap_eq_nil_iff]
    intro p hp
    have hnone : parsePlatform raw p = none := by
      simp only [parsePlatform, hraw p hp]
      simp
    rw [hnone]
    rfl
  have hgen : generate_sales_copy true (.ok raw) = (raw, some ([] : ContentDict)) := by
    simp [generate_sales_copy, hparse]
  refine ⟨by rw [hgen], ?_, ?_⟩
  all_goals
    unfold url_message
    simp only [hhttp, Bool.not_true, Bool.false_eq_true, if_false, hs, hns, hgen,
      List.isEmpty_nil, if_true]

theorem empty_headers_generation_failure_witness :
    ("http".data.isPrefixOf "http://x".data = true)
    ∧ (containsSub "Desc".data descSentinel = false)
    ∧ (∀ p ∈ platforms, pyFind "no headers here".data (startTagOf p) 0 = -1)
    ∧ (generate_sales_copy true (.ok "no headers here".data)).2 = some ([] : ContentDict) := by
  refine ⟨by decide, by decide, by decide, ?_⟩
  exact (empty_headers_generation_failure
    (fun _ => some ⟨"http://x".data, "T".data, "Desc".data⟩) (fun _ => none) 0
    "http://x".data "no headers here".data ⟨"http://x".data, "T".data, "Desc".data⟩
    (by decide) rfl (by decide) (by decide)).1

/-- C7: for every approved mapping, the distributor's payload has a single
consolidated text that contains the Facebook entry and the X (Twitter) entry
as substrings; the text is built from those two entries only — it is
unchanged whenever only the LinkedIn or Pinterest entries differ, which is
the precise sense in which those two entries are not contained in the
consolidated post; the payload carries the fixed, statically configured
profile-identifier list `[123, 456, 789]`, schedule `"now"`, and an empty
media list. -/
theorem consolidated_payload (k : List Char) (d : ContentDict) :
    containsSub (buildPayload k d).content (dictGet d "Facebook") = true
    ∧ containsSub (buildPayload k d).content (dictGet d "X (Twitter)") = true
    ∧ (∀ d2 : ContentDict, dictGet d2 "Facebook" = dictGet d "Facebook" →
        dictGet d2 "X (Twitter)" = dictGet d "X (Twitter)" →
        (buildPayload k d2).content = (buildPayload k d).content)
    ∧ (buildPayload k d).platform_ids = [123, 456, 789]
    ∧ (buildPayload k d).schedule_time = "now".data
    ∧ (buildPayload k d).media_urls = [] := by
  refine ⟨?_, ?_, ?_, rfl, rfl, rfl⟩
  · show containsSub ("Multi-platform content generated by Content Forge Bot:\n\n".data
      ++ dictGet d "Facebook" ++ "\n\n".data ++ dictGet d "X (Twitter)") (dictGet d "Facebook") = true
    simp only [List.append_assoc]
    exact containsSub_mid _ _ _
  · show containsSub ("Multi-platform content generated by Content Forge Bot:\n\n".data
      ++ dictGet d "Facebook" ++ "\n\n".data ++ dictGet d "X (Twitter)") (dictGet d "X (Twitter)") = true
    exact containsSub_suffix _ _
  · intro d2 hf hx
    show "Multi-platform content generated by Content Forge Bot:\n\n".data
        ++ dictGet d2 "Facebook" ++ "\n\n".data ++ dictGet d2 "X (Twitter)"
      = "Multi-platform content generated by Content Forge Bot:\n\n".data
        ++ dictGet d "Facebook" ++ "\n\n".data ++ dictGet d "X (Twitter)"
    rw [hf, hx]

theorem consolidated_payload_witness :
    (dictGet [("Facebook", "F".data)] "Facebook" = dictGet [("Facebook", "F".data)] "Facebook")
    ∧ containsSub (buildPayload "k".data [("Facebook", "F".data)]).content
        (dictGet [("Facebook", "F".data)] "Facebook") = true
    ∧ (buildPayload "k".data [("Facebook", "F".data)]).platform_ids = [123, 456, 789] := by
  have h := consolidated_payload "k".data [("Facebook", "F".data)]
  exact ⟨rfl, h.1, h.2.2.2.1⟩

/-- C8: the distributor is a total function returning a result message on
every path (the embedding is total, so no exception escapes).  When the
credential is missing (unset or empty, both falsy in the source), it returns
the fixed failure message with no network call; on a response with status
`"success"` the message contains the rendered post identifier; on any other
declared status the message contains the service's error text (defaulted to
`Unknown error` when absent); and a transport-level error yields the distinct
network-failure message built from the fixed network-failure prefix. -/
theorem distributor_result_paths (apiKey : Option (List Char))
    (transport : SocialBuPayload → TransportOutcome) (d : ContentDict) :
    (keyMissing apiKey = true →
      distribute_content_socialbu apiKey transport d = (missingKeyMsg, []))
    ∧ (∀ resp, keyMissing apiKey = false →
        transport (buildPayload (apiKey.getD []) d) = .ok resp →
        resp.status = some "success".data →
        (distribute_content_socialbu apiKey transport d).1 = successMsgOf resp.post_id
        ∧ containsSub (distribute_content_socialbu apiKey transport d).1
            (renderPostId resp.post_id) = true)
    ∧ (∀ resp, keyMissing apiKey = false →
        transport (buildPayload (apiKey.getD []) d) = .ok resp →
        resp.status ≠ some "success".data →
        (distribute_content_socialbu apiKey transport d).1 = serviceErrorMsgOf resp.message
        ∧ containsSub (distribute_content_socialbu apiKey transport d).1
            (resp.message.getD "Unknown error".data) = true)
    ∧ (∀ e, keyMissing apiKey = false →
        transport (buildPayload (apiKey.getD []) d) = .requestError e →
        (distribute_content_socialbu apiKey transport d).1 = networkFailPrefixMsg ++ e) := by
  refine ⟨?_, ?_, ?_, ?_⟩
  · intro hk
    unfold distribute_content_socialbu
    rw [hk]
    rfl
  · intro resp hk ht hstat
    have hrun : distribute_content_socialbu apiKey transport d
        = (successMsgOf resp.post_id, [buildPayload (apiKey.getD []) d]) := by
      unfold distribute_content_socialbu
      simp only [hk, Bool.false_eq_true, if_false, ht, hstat, if_true]
    rw [hrun]
    refine ⟨rfl, ?_⟩
    show containsSub ("Content successfully distributed via SocialBu! (Post ID: ".data
      ++ renderPostId resp.post_id ++ ").".data) (renderPostId resp.post_id) = true
    simp only [List.append_assoc]
    exact containsSub_mid _ _ _
  · intro resp hk ht hstat
    have hrun : distribute_content_socialbu apiKey transport d
        = (serviceErrorMsgOf resp.message, [buildPayload (apiKey.getD []) d]) := by
      unfold distribute_content_socialbu
      simp only [hk, Bool.false_eq_true, if_false, ht, hstat, if_false]
    rw [hrun]
    refine ⟨rfl, ?_⟩
    show containsSub ("SocialBu API reported an error: ".data
      ++ resp.message.getD "Unknown error".data) (resp.message.getD "Unknown error".data) = true
    exact containsSub_suffix _ _
  · intro e hk ht
    unfold distribute_content_socialbu
    simp only [hk, Bool.false_eq_true, if_false, ht]

theorem distributor_result_paths_witness :
    (keyMissing (some "k".data) = false)
    ∧ ((fun _ => TransportOutcome.ok ⟨some "success".data, none, some 42⟩ :
          SocialBuPayload → TransportOutcome)
        (buildPayload ((some "k".data).getD []) [])
        = .ok ⟨some "success".data, none, some 42⟩)
    ∧ (distribute_content_socialbu (some "k".data)
        (fun _ => .ok ⟨some "success".data, none, some 42⟩) []).1
        = successMsgOf (some 42)
    ∧ containsSub (distribute_content_socialbu (some "k".data)
        (fun _ => .ok ⟨some "success".data, none, some 42⟩) []).1 "42".data = true
    ∧ (keyMissing (none : Option (List Char)) = true)
    ∧ distribute_content_socialbu none
        (fun _ => .ok ⟨some "success".data, none, some 42⟩) [] = (missingKeyMsg, []) := by
  have h := distributor_result_paths (some "k".data)
    (fun _ => .ok ⟨some "success".data, none, some 42⟩) []
  have h2 := (h.2.1 ⟨some "success".data, none, some 42⟩ (by decide) rfl rfl)
  have h3 := distributor_result_paths (none : Option (List Char))
    (fun _ => .ok ⟨some "success".data, none, some 42⟩) []
  refine ⟨by decide, rfl, h2.1, ?_, by decide, h3.1 rfl⟩
  have h42 : renderPostId (some 42) = "42".data := by decide
  rw [← h42]
  exact h2.2

/-- C2 (code-bug evidence): a raw text in which the Pinterest header is
missing but the other three are present, with bodies `A`, `B`, `C`.  The
LinkedIn header is present, yet its parsed body is `""` instead of `"C"`:
the scan for the next `"## "` finds none, `find` returns `-1`, and the slice
`raw_text[content_start:-1]` (src/main.py:123,127) silently drops the final
character of the text before stripping.  This refutes the claim that every
platform whose header is present still parses to its correct body text. -/
theorem missing_header_drops_last_char :
    parseSections "## Facebook\nA\n## X (Twitter)\nB\n## LinkedIn\nC".data
      = [("Facebook", "A".data), ("X (Twitter)", "B".data), ("LinkedIn", [])] := by
  decide

theorem splitWsAux_words (s : List Char) :
    ∀ acc : List Char, (∀ c ∈ acc, c.isWhitespace = false) →
    ∀ w ∈ splitWsAux s acc, w ≠ [] ∧ ∀ c ∈ w, c.isWhitespace = false := by
  induction s with
  | nil =>
    intro acc hacc w hw
    unfold splitWsAux at hw
    by_cases he : acc.isEmpty = true
    · rw [if_pos he] at hw
      exact absurd hw (List.not_mem_nil w)
    · rw [if_neg he] at hw
      rw [List.mem_singleton] at hw
      subst hw
      constructor
      · intro hrev
        exact he (by rw [List.isEmpty_iff, ← List.reverse_eq_nil_iff, hrev])
      · intro c hc
        exact hacc c (List.mem_reverse.mp hc)
  | cons a t ih =>
    intro acc hacc w hw
    unfold splitWsAux at hw
    by_cases hws : a.isWhitespace = true
    · rw [if_pos hws] at hw
      by_cases he : acc.isEmpty = true
      · rw [if_pos he] at hw
        exact ih [] (fun c hc => absurd hc (List.not_mem_nil c)) w hw
      · rw [if_neg he] at hw
        rcases List.mem_cons.mp hw with rfl | hw2
        · constructor
          · intro hrev
            exact he (by rw [List.isEmpty_iff, ← List.reverse_eq_nil_iff, hrev])
          · intro c hc
            exact hacc c (List.mem_reverse.mp hc)
        · exact ih [] (fun c hc => absurd hc (List.not_mem_nil c)) w hw2
    · rw [if_neg hws] at hw
      refine ih (a :: acc) ?_ w hw
      intro c hc
      rcases List.mem_cons.mp hc with rfl | hc2
      · exact Bool.eq_false_iff.mpr hws
      · exact hacc c hc2

theorem collapsedOk_append_word (w s : List Char)
    (hw : ∀ c ∈ w, c.isWhitespace = false) (hs : collapsedOk s = true) :
    collapsedOk (w ++ s) = true := by
  induction w with
  | nil => simpa using hs
  | cons a t ih =>
    have ha : a.isWhitespace = false := hw a (List.mem_cons_self a t)
    have ht : collapsedOk (t ++ s) = true :=
      ih (fun c hc => hw c (List.mem_cons_of_mem a hc))
    rw [List.cons_append]
    cases hts : t ++ s with
    | nil =>
      rw [show collapsedOk [a] = (!a.isWhitespace || a == ' ') from rfl, ha]
      rfl
    | cons b r =>
      rw [hts] at ht
      rw [show collapsedOk (a :: b :: r)
          = ((!a.isWhitespace || (a == ' ' && !b.isWhitespace)) && collapsedOk (b :: r)) from rfl]
      rw [ha, ht]
      rfl

theorem joinSpace_cons (x : List Char) (r : List (List Char)) :
    ∃ rest, joinSpace (x :: r) = x ++ rest := by
  cases r with
  | nil => exact ⟨[], (List.append_nil x).symm⟩
  | cons y q => exact ⟨' ' :: joinSpace (y :: q), rfl⟩

theorem collapsedOk_joinSpace (ws : List (List Char))
    (h : ∀ w ∈ ws, w ≠ [] ∧ ∀ c ∈ w, c.isWhitespace = false) :
    collapsedOk (joinSpace ws) = true := by
  induction ws with
  | nil => rfl
  | cons w t ih =>
    cases t with
    | nil =>
      have hcoll : collapsedOk (w ++ []) = true :=
        collapsedOk_append_word w [] (h w (List.mem_singleton.mpr rfl)).2 rfl
      rw [List.append_nil] at hcoll
      exact hcoll
    | cons x r =>
      show collapsedOk (w ++ ' ' :: joinSpace (x :: r)) = true
      apply collapsedOk_append_word w _ (h w (List.mem_cons_self w _)).2
      obtain ⟨rest, hrest⟩ := joinSpace_cons x r
      have hxmem : x ∈ w :: x :: r := List.mem_cons_of_mem w (List.mem_cons_self x r)
      obtain ⟨c, x2, rfl⟩ : ∃ c x2, x = c :: x2 := by
        cases hx : x with
        | nil => exact absurd hx (h x hxmem).1
        | cons c x2 => exact ⟨c, x2, rfl⟩
      have hcws : c.isWhitespace = false :=
        (h (c :: x2) hxmem).2 c (List.mem_cons_self c x2)
      have hih : collapsedOk (joinSpace ((c :: x2) :: r)) = true :=
        ih (fun w2 hw2 => h w2 (List.mem_cons_of_mem w hw2))
      rw [hrest] at hih ⊢
      rw [List.cons_append] at hih ⊢
      rw [show collapsedOk (' ' :: c :: (x2 ++ rest))
          = ((!(' ' : Char).isWhitespace
              || ((' ' : Char) == ' ' && !c.isWhitespace)) && collapsedOk (c :: (x2 ++ rest))) from rfl]
      rw [hcws, hih]
      rfl

theorem collapsedOk_take (s : List Char) (n : Nat) (h : collapsedOk s = true) :
    collapsedOk (s.take n) = true := by
  induction s generalizing n with
  | nil => rw [List.take_nil]; rfl
  | cons a t ih =>
    cases n with
    | zero => rfl
    | succ m =>
      cases t with
      | nil =>
        rw [show (([a] : List Char)).take (m + 1) = [a] from by simp]
        exact h
      | cons b r =>
        rw [show collapsedOk (a :: b :: r)
            = ((!a.isWhitespace || (a == ' ' && !b.isWhitespace)) && collapsedOk (b :: r)) from rfl,
          Bool.and_eq_true] at h
        cases m with
        | zero =>
          rw [show ((a :: b :: r).take 1) = [a] from rfl]
          rw [show collapsedOk [a] = (!a.isWhitespace || a == ' ') from rfl]
          cases ha : a.isWhitespace with
          | false => rfl
          | true =>
            have h1 := h.1
            rw [ha] at h1
            rw [Bool.not_true, Bool.false_or, Bool.and_eq_true] at h1
            rw [h1.1]
            rfl
        | succ k =>
          rw [show ((a :: b :: r).take (k + 1 + 1)) = a :: b :: r.take k from rfl]
          rw [show collapsedOk (a :: b :: r.take k)
              = ((!a.isWhitespace || (a == ' ' && !b.isWhitespace))
                  && collapsedOk (b :: r.take k)) from rfl]
          rw [Bool.and_eq_true]
          refine ⟨h.1, ?_⟩
          have h2 := ih (k + 1) h.2
          rw [show ((b :: r).take (k + 1)) = b :: r.take k from rfl] at h2
          exact h2

/-- C6: for every fetched page whose markup yields no heading-level-1 element
(first conjunct) and no description/details-classed element (second
conjunct), extraction returns the two documented sentinel strings; and for
every page, the returned description is in collapsed form (every whitespace
character is a single plain space, never two in a row) with length at most
2000, and a description whose collapsed form is longer than 2000 characters
is truncated to exactly 2000. -/
theorem extractor_contract (url : List Char) (soup : SoupView) :
    (soup.h1Text = none → (scrape_product_details url soup).title = titleSentinel)
    ∧ (soup.descText = none → (scrape_product_details url soup).description = descSentinel)
    ∧ (scrape_product_details url soup).description.length ≤ 2000
    ∧ collapsedOk (scrape_product_details url soup).description = true
    ∧ (∀ d0, soup.descText = some d0 → 2000 < (collapseWs (stripChars d0)).length →
        (scrape_product_details url soup).description.length = 2000) := by
  refine ⟨?_, ?_, ?_, ?_, ?_⟩
  · intro h1
    simp [scrape_product_details, h1]
  · intro hd
    simp only [scrape_product_details, hd]
    decide
  · simp only [scrape_product_details]
    rw [List.length_take]
    exact inf_le_left
  · simp only [scrape_product_details]
    apply collapsedOk_take
    show collapsedOk (joinSpace (splitWsAux _ [])) = true
    apply collapsedOk_joinSpace
    exact splitWsAux_words _ [] (fun c hc => absurd hc (List.not_mem_nil c))
  · intro d0 hd hlong
    simp only [scrape_product_details, hd]
    rw [List.length_take]
    omega

theorem dropWhile_ws_replicate (m : Nat) :
    (List.replicate m 'a').dropWhile Char.isWhitespace = List.replicate m 'a' := by
  cases m with
  | zero => rfl
  | succ k =>
    rw [List.replicate_succ, List.dropWhile_cons]
    rw [show ('a').isWhitespace = false from by decide]
    simp

theorem stripChars_replicate (n : Nat) :
    stripChars (List.replicate n 'a') = List.replicate n 'a' := by
  unfold stripChars
  rw [dropWhile_ws_replicate, List.reverse_replicate, dropWhile_ws_replicate,
    List.reverse_replicate]

theorem splitWsAux_replicate (m : Nat) :
    ∀ acc : List Char, acc.isEmpty = false →
    splitWsAux (List.replicate m 'a') acc = [acc.reverse ++ List.replicate m 'a'] := by
  induction m with
  | zero =>
    intro acc h
    show (if acc.isEmpty = true then [] else [acc.reverse]) = _
    rw [h]
    simp
  | succ k ih =>
    intro acc h
    rw [List.replicate_succ]
    show (if ('a').isWhitespace = true then
        (if acc.isEmpty = true then splitWsAux (List.replicate k 'a') []
         else acc.reverse :: splitWsAux (List.replicate k 'a') [])
      else splitWsAux (List.replicate k 'a') ('a' :: acc)) = _
    rw [show ('a').isWhitespace = false from by decide]
    simp only [Bool.false_eq_true, if_false]
    rw [ih ('a' :: acc) rfl]
    congr 1
    rw [List.reverse_cons, List.append_assoc, List.singleton_append]

theorem collapseWs_replicate (n : Nat) :
    collapseWs (List.replicate (n + 1) 'a') = List.replicate (n + 1) 'a' := by
  unfold collapseWs splitWs
  rw [List.replicate_succ]
  rw [show splitWsAux ('a' :: List.replicate n 'a') []
      = splitWsAux (List.replicate n 'a') ['a'] from by
    show (if ('a').isWhitespace = true then
        (if (List.isEmpty ([] : List Char)) = true then splitWsAux (List.replicate n 'a') []
         else ([] : List Char).reverse :: splitWsAux (List.replicate n 'a') [])
      else splitWsAux (List.replicate n 'a') ('a' :: [])) = _
    rw [show ('a').isWhitespace = false from by decide]
    simp]
  rw [splitWsAux_replicate n ['a'] rfl]
  show (['a'] : List Char).reverse ++ List.replicate n 'a' = 'a' :: List.replicate n 'a'
  rw [show ((['a'] : List Char)).reverse = ['a'] from rfl, List.singleton_append]

theorem extractor_contract_witness :
    ((⟨none, none⟩ : SoupView).h1Text = none)
    ∧ (scrape_product_details "u".data ⟨none, none⟩).title = titleSentinel
    ∧ (scrape_product_details "u".data ⟨none, none⟩).description = descSentinel
    ∧ (2000 < (collapseWs (stripChars (List.replicate 2001 'a'))).length)
    ∧ (scrape_product_details "u".data
        ⟨none, some (List.replicate 2001 'a')⟩).description.length = 2000 := by
  have h1 := extractor_contract "u".data ⟨none, none⟩
  have h2 := extractor_contract "u".data ⟨none, some (List.replicate 2001 'a')⟩
  have hlong : 2000 < (collapseWs (stripChars (List.replicate 2001 'a'))).length := by
    rw [stripChars_replicate]
    rw [show (2001 : Nat) = 2000 + 1 from rfl, collapseWs_replicate, List.length_replicate]
    omega
  exact ⟨rfl, h1.1 rfl, h1.2.1 rfl, hlong, h2.2.2.2.2 _ rfl hlong⟩

theorem no_occ_range' (needle P Q X : List Char) (m a b : Nat)
    (hX : X = P ++ Q) (ha : a = P.length) (hb : b = a + m)
    (h : ∀ i < m, ¬ needle <+: (Q.drop i)) :
    ∀ i, a ≤ i → i < b → ¬ needle <+: (X.drop i) := by
  subst hX
  subst ha
  subst hb
  exact no_occ_range needle P Q m h

theorem drop_concat (P Q X : List Char) (n : Nat) (hX : X = P ++ Q)
    (hn : n = P.length) : X.drop n = Q := by
  subst hX
  subst hn
  exact List.drop_left P Q

theorem find_positions (t1 t2 t3 t4 A B C D : List Char)
    (hs2 : sharps <+: t2) (hs3 : sharps <+: t3) (hs4 : sharps <+: t4)
    (hA : NoSharps A) (hB : NoSharps B) (hC : NoSharps C)
    (m21 : mismatchWithin t2 t1 0 = true)
    (m31 : mismatchWithin t3 t1 0 = true) (m32 : mismatchWithin t3 t2 0 = true)
    (m41 : mismatchWithin t4 t1 0 = true) (m42 : mismatchWithin t4 t2 0 = true)
    (m43 : mismatchWithin t4 t3 0 = true)
    (i1 : ∀ i < t1.length, 0 < i → mismatchWithin sharps t1 i = true)
    (i2 : ∀ i < t2.length, 0 < i → mismatchWithin sharps t2 i = true)
    (i3 : ∀ i < t3.length, 0 < i → mismatchWithin sharps t3 i = true) :
    pyFind (t1 ++ (A ++ (t2 ++ (B ++ (t3 ++ (C ++ (t4 ++ D))))))) t1 0 = ((0 : Nat) : Int)
    ∧ pyFind (t1 ++ (A ++ (t2 ++ (B ++ (t3 ++ (C ++ (t4 ++ D))))))) sharps (t1.length) = ((t1.length + A.length : Nat) : Int)
    ∧ pyFind (t1 ++ (A ++ (t2 ++ (B ++ (t3 ++ (C ++ (t4 ++ D))))))) t2 0 = ((t1.length + A.length : Nat) : Int)
    ∧ pyFind (t1 ++ (A ++ (t2 ++ (B ++ (t3 ++ (C ++ (t4 ++ D))))))) sharps (t1.length + A.length + t2.length) = ((t1.length + A.length + t2.length + B.length : Nat) : Int)
    ∧ pyFind (t1 ++ (A ++ (t2 ++ (B ++ (t3 ++ (C ++ (t4 ++ D))))))) t3 0 = ((t1.length + A.length + t2.length + B.length : Nat) : Int)
    ∧ pyFind (t1 ++ (A ++ (t2 ++ (B ++ (t3 ++ (C ++ (t4 ++ D))))))) sharps (t1.length + A.length + t2.length + B.length + t3.length) = ((t1.length + A.length + t2.length + B.length + t3.length + C.length : Nat) : Int)
    ∧ pyFind (t1 ++ (A ++ (t2 ++ (B ++ (t3 ++ (C ++ (t4 ++ D))))))) t4 0 = ((t1.length + A.length + t2.length + B.length + t3.length + C.length : Nat) : Int) := by
  have hX2 : t1 ++ (A ++ (t2 ++ (B ++ (t3 ++ (C ++ (t4 ++ D)))))) = (t1 ++ A) ++ (t2 ++ (B ++ (t3 ++ (C ++ (t4 ++ D))))) := by
    simp [List.append_assoc]
  have hX3 : t1 ++ (A ++ (t2 ++ (B ++ (t3 ++ (C ++ (t4 ++ D)))))) = ((t1 ++ A) ++ t2) ++ (B ++ (t3 ++ (C ++ (t4 ++ D)))) := by
    simp [List.append_assoc]
  have hX4 : t1 ++ (A ++ (t2 ++ (B ++ (t3 ++ (C ++ (t4 ++ D)))))) = (((t1 ++ A) ++ t2) ++ B) ++ (t3 ++ (C ++ (t4 ++ D))) := by
    simp [List.append_assoc]
  have hX5 : t1 ++ (A ++ (t2 ++ (B ++ (t3 ++ (C ++ (t4 ++ D)))))) = ((((t1 ++ A) ++ t2) ++ B) ++ t3) ++ (C ++ (t4 ++ D)) := by
    simp [List.append_assoc]
  have hX6 : t1 ++ (A ++ (t2 ++ (B ++ (t3 ++ (C ++ (t4 ++ D)))))) = (((((t1 ++ A) ++ t2) ++ B) ++ t3) ++ C) ++ (t4 ++ D) := by
    simp [List.append_assoc]
  have la2 : t1.length + A.length = (t1 ++ A).length := by
    simp only [List.length_append]
    try omega
  have la3 : t1.length + A.length + t2.length = ((t1 ++ A) ++ t2).length := by
    simp only [List.length_append]
    try omega
  have la4 : t1.length + A.length + t2.length + B.length = (((t1 ++ A) ++ t2) ++ B).length := by
    simp only [List.length_append]
    try omega
  have la5 : t1.length + A.length + t2.length + B.length + t3.length = ((((t1 ++ A) ++ t2) ++ B) ++ t3).length := by
    simp only [List.length_append]
    try omega
  have la6 : t1.length + A.length + t2.length + B.length + t3.length + C.length = (((((t1 ++ A) ++ t2) ++ B) ++ t3) ++ C).length := by
    simp only [List.length_append]
    try omega
  have d2 : (t1 ++ (A ++ (t2 ++ (B ++ (t3 ++ (C ++ (t4 ++ D))))))).drop (t1.length + A.length) = t2 ++ (B ++ (t3 ++ (C ++ (t4 ++ D)))) :=
    drop_concat (t1 ++ A) (t2 ++ (B ++ (t3 ++ (C ++ (t4 ++ D))))) (t1 ++ (A ++ (t2 ++ (B ++ (t3 ++ (C ++ (t4 ++ D))))))) (t1.length + A.length) hX2 la2
  have d3 : (t1 ++ (A ++ (t2 ++ (B ++ (t3 ++ (C ++ (t4 ++ D))))))).drop (t1.length + A.length + t2.length + B.length) = t3 ++ (C ++ (t4 ++ D)) :=
    drop_concat (((t1 ++ A) ++ t2) ++ B) (t3 ++ (C ++ (t4 ++ D))) (t1 ++ (A ++ (t2 ++ (B ++ (t3 ++ (C ++ (t4 ++ D))))))) (t1.length + A.length + t2.length + B.length) hX4 la4
  have d4 : (t1 ++ (A ++ (t2 ++ (B ++ (t3 ++ (C ++ (t4 ++ D))))))).drop (t1.length + A.length + t2.length + B.length + t3.length + C.length) = t4 ++ D :=
    drop_concat ((((((t1 ++ A) ++ t2) ++ B) ++ t3) ++ C)) (t4 ++ D) (t1 ++ (A ++ (t2 ++ (B ++ (t3 ++ (C ++ (t4 ++ D))))))) (t1.length + A.length + t2.length + B.length + t3.length + C.length) hX6 la6
  have q2 : sharps <+: t2 ++ (B ++ (t3 ++ (C ++ (t4 ++ D)))) := hs2.trans (List.prefix_append _ _)
  have q3 : sharps <+: t3 ++ (C ++ (t4 ++ D)) := hs3.trans (List.prefix_append _ _)
  have q4 : sharps <+: t4 ++ D := hs4.trans (List.prefix_append _ _)
  have rangeA : ∀ N : List Char, sharps <+: N →
      ∀ i, t1.length ≤ i → i < t1.length + A.length → ¬ N <+: ((t1 ++ (A ++ (t2 ++ (B ++ (t3 ++ (C ++ (t4 ++ D))))))).drop i) := fun N hsN =>
    no_occ_range' N t1 (A ++ (t2 ++ (B ++ (t3 ++ (C ++ (t4 ++ D)))))) (t1 ++ (A ++ (t2 ++ (B ++ (t3 ++ (C ++ (t4 ++ D))))))) A.length (t1.length) (t1.length + A.length) rfl rfl rfl
      (body_block_no_occ N A (t2 ++ (B ++ (t3 ++ (C ++ (t4 ++ D))))) hsN hA q2)
  have rangeB : ∀ N : List Char, sharps <+: N →
      ∀ i, t1.length + A.length + t2.length ≤ i → i < t1.length + A.length + t2.length + B.length → ¬ N <+: ((t1 ++ (A ++ (t2 ++ (B ++ (t3 ++ (C ++ (t4 ++ D))))))).drop i) := fun N hsN =>
    no_occ_range' N ((t1 ++ A) ++ t2) (B ++ (t3 ++ (C ++ (t4 ++ D)))) (t1 ++ (A ++ (t2 ++ (B ++ (t3 ++ (C ++ (t4 ++ D))))))) B.length (t1.length + A.length + t2.length) (t1.length + A.length + t2.length + B.length) hX3 la3 rfl
      (body_block_no_occ N B (t3 ++ (C ++ (t4 ++ D))) hsN hB q3)
  have rangeC : ∀ N : List Char, sharps <+: N →
      ∀ i, t1.length + A.length + t2.length + B.length + t3.length ≤ i → i < t1.length + A.length + t2.length + B.length + t3.length + C.length → ¬ N <+: ((t1 ++ (A ++ (t2 ++ (B ++ (t3 ++ (C ++ (t4 ++ D))))))).drop i) := fun N hsN =>
    no_occ_range' N ((((t1 ++ A) ++ t2) ++ B) ++ t3) (C ++ (t4 ++ D)) (t1 ++ (A ++ (t2 ++ (B ++ (t3 ++ (C ++ (t4 ++ D))))))) C.length (t1.length + A.length + t2.length + B.length + t3.length) (t1.length + A.length + t2.length + B.length + t3.length + C.length) hX5 la5 rfl
      (body_block_no_occ N C (t4 ++ D) hsN hC q4)
  have rangeH2 : ∀ N : List Char, sharps <+: N → mismatchWithin N t2 0 = true →
      ∀ i, t1.length + A.length ≤ i → i < t1.length + A.length + t2.length → ¬ N <+: ((t1 ++ (A ++ (t2 ++ (B ++ (t3 ++ (C ++ (t4 ++ D))))))).drop i) := fun N hsN hm =>
    no_occ_range' N (t1 ++ A) (t2 ++ (B ++ (t3 ++ (C ++ (t4 ++ D))))) (t1 ++ (A ++ (t2 ++ (B ++ (t3 ++ (C ++ (t4 ++ D))))))) t2.length (t1.length + A.length) (t1.length + A.length + t2.length) hX2 la2 rfl
      (header_block_no_occ N t2 (B ++ (t3 ++ (C ++ (t4 ++ D)))) hsN hm i2)
  have rangeH3 : ∀ N : List Char, sharps <+: N → mismatchWithin N t3 0 = true →
      ∀ i, t1.length + A.length + t2.length + B.length ≤ i → i < t1.length + A.length + t2.length + B.length + t3.length → ¬ N <+: ((t1 ++ (A ++ (t2 ++ (B ++ (t3 ++ (C ++ (t4 ++ D))))))).drop i) := fun N hsN hm =>
    no_occ_range' N (((t1 ++ A) ++ t2) ++ B) (t3 ++ (C ++ (t4 ++ D))) (t1 ++ (A ++ (t2 ++ (B ++ (t3 ++ (C ++ (t4 ++ D))))))) t3.length (t1.length + A.length + t2.length + B.length) (t1.length + A.length + t2.length + B.length + t3.length) hX4 la4 rfl
      (header_block_no_occ N t3 (C ++ (t4 ++ D)) hsN hm i3)
  have hH1 : ∀ N : List Char, sharps <+: N → mismatchWithin N t1 0 = true →
      ∀ i < t1.length, ¬ N <+: ((t1 ++ (A ++ (t2 ++ (B ++ (t3 ++ (C ++ (t4 ++ D))))))).drop i) := fun N hsN hm =>
    header_block_no_occ N t1 (A ++ (t2 ++ (B ++ (t3 ++ (C ++ (t4 ++ D)))))) hsN hm i1
  refine ⟨?_, ?_, ?_, ?_, ?_, ?_, ?_⟩
  · exact pyFind_eq (t1 ++ (A ++ (t2 ++ (B ++ (t3 ++ (C ++ (t4 ++ D))))))) t1 0 0 (le_refl 0)
      (fun i _ h => absurd h (Nat.not_lt_zero i))
      (by rw [List.drop_zero]; exact List.prefix_append _ _)
  · exact pyFind_eq (t1 ++ (A ++ (t2 ++ (B ++ (t3 ++ (C ++ (t4 ++ D))))))) sharps (t1.length) (t1.length + A.length) (by omega)
      (rangeA sharps (List.prefix_refl sharps))
      (by rw [d2]; exact q2)
  · exact pyFind_eq (t1 ++ (A ++ (t2 ++ (B ++ (t3 ++ (C ++ (t4 ++ D))))))) t2 0 (t1.length + A.length) (Nat.zero_le _)
      (fun i _ hi => no_occ_cat t2 (t1 ++ (A ++ (t2 ++ (B ++ (t3 ++ (C ++ (t4 ++ D))))))) (t1.length) (t1.length + A.length) (hH1 t2 hs2 m21) (rangeA t2 hs2) i hi)
      (by rw [d2]; exact List.prefix_append _ _)
  · exact pyFind_eq (t1 ++ (A ++ (t2 ++ (B ++ (t3 ++ (C ++ (t4 ++ D))))))) sharps (t1.length + A.length + t2.length) (t1.length + A.length + t2.length + B.length) (by omega)
      (rangeB sharps (List.prefix_refl sharps))
      (by rw [d3]; exact q3)
  · exact pyFind_eq (t1 ++ (A ++ (t2 ++ (B ++ (t3 ++ (C ++ (t4 ++ D))))))) t3 0 (t1.length + A.length + t2.length + B.length) (Nat.zero_le _)
      (fun i _ hi => no_occ_cat t3 (t1 ++ (A ++ (t2 ++ (B ++ (t3 ++ (C ++ (t4 ++ D))))))) (t1.length + A.length + t2.length) (t1.length + A.length + t2.length + B.length)
        (no_occ_cat t3 (t1 ++ (A ++ (t2 ++ (B ++ (t3 ++ (C ++ (t4 ++ D))))))) (t1.length + A.length) (t1.length + A.length + t2.length)
          (no_occ_cat t3 (t1 ++ (A ++ (t2 ++ (B ++ (t3 ++ (C ++ (t4 ++ D))))))) (t1.length) (t1.length + A.length) (hH1 t3 hs3 m31) (rangeA t3 hs3))
          (rangeH2 t3 hs3 m32))
        (rangeB t3 hs3) i hi)
      (by rw [d3]; exact List.prefix_append _ _)
  · exact pyFind_eq (t1 ++ (A ++ (t2 ++ (B ++ (t3 ++ (C ++ (t4 ++ D))))))) sharps (t1.length + A.length + t2.length + B.length + t3.length) (t1.length + A.length + t2.length + B.length + t3.length + C.length) (by omega)
      (rangeC sharps (List.prefix_refl sharps))
      (by rw [d4]; exact q4)
  · exact pyFind_eq (t1 ++ (A ++ (t2 ++ (B ++ (t3 ++ (C ++ (t4 ++ D))))))) t4 0 (t1.length + A.length + t2.length + B.length + t3.length + C.length) (Nat.zero_le _)
      (fun i _ hi => no_occ_cat t4 (t1 ++ (A ++ (t2 ++ (B ++ (t3 ++ (C ++ (t4 ++ D))))))) (t1.length + A.length + t2.length + B.length + t3.length) (t1.length + A.length + t2.length + B.length + t3.length + C.length)
        (no_occ_cat t4 (t1 ++ (A ++ (t2 ++ (B ++ (t3 ++ (C ++ (t4 ++ D))))))) (t1.length + A.length + t2.length + B.length) (t1.length + A.length + t2.length + B.length + t3.length)
          (no_occ_cat t4 (t1 ++ (A ++ (t2 ++ (B ++ (t3 ++ (C ++ (t4 ++ D))))))) (t1.length + A.length + t2.length) (t1.length + A.length + t2.length + B.length)
            (no_occ_cat t4 (t1 ++ (A ++ (t2 ++ (B ++ (t3 ++ (C ++ (t4 ++ D))))))) (t1.length + A.length) (t1.length + A.length + t2.length)
              (no_occ_cat t4 (t1 ++ (A ++ (t2 ++ (B ++ (t3 ++ (C ++ (t4 ++ D))))))) (t1.length) (t1.length + A.length) (hH1 t4 hs4 m41) (rangeA t4 hs4))
              (rangeH2 t4 hs4 m42))
            (rangeB t4 hs4))
          (rangeH3 t4 hs4 m43))
        (rangeC t4 hs4) i hi)
      (by rw [d4]; exact List.prefix_append _ _)

/-- C1: round-trip of the section parser.  For every raw text consisting of
the four headers `## Facebook`, `## X (Twitter)`, `## LinkedIn`,
`## Pinterest` in that order with bodies `A`, `B`, `C`, `D` (bodies of the
first three sections contain no occurrence of the sigil `"## "`, which is
what makes them section bodies for the ordered scan), the parser returns the
mapping Facebook ↦ A, X (Twitter) ↦ B, LinkedIn ↦ C, Pinterest ↦ D with
leading and trailing whitespace stripped from each body: each platform's span
starts immediately after its header and ends at the start of the next `## `
header, except Pinterest, whose span extends to the end of the text (`D` is
unconstrained). -/
theorem parser_roundtrip (A B C D : List Char)
    (hA : NoSharps A) (hB : NoSharps B) (hC : NoSharps C) :
    parseSections (startTagOf "Facebook" ++ A ++ startTagOf "X (Twitter)" ++ B ++ startTagOf "LinkedIn" ++ C ++ startTagOf "Pinterest" ++ D)
    = [("Facebook", stripChars A), ("X (Twitter)", stripChars B),
       ("LinkedIn", stripChars C), ("Pinterest", stripChars D)] := by
  obtain ⟨E1, E2, E3, E4, E5, E6, E7⟩ := find_positions
    (startTagOf "Facebook") (startTagOf "X (Twitter)") (startTagOf "LinkedIn") (startTagOf "Pinterest") A B C D
    (prefixOf_correct.mp (by decide)) (prefixOf_correct.mp (by decide))
    (prefixOf_correct.mp (by decide))
    hA hB hC
    (by decide) (by decide) (by decide) (by decide) (by decide) (by decide)
    (by decide) (by decide) (by decide)
  have hassoc : startTagOf "Facebook" ++ A ++ startTagOf "X (Twitter)" ++ B ++ startTagOf "LinkedIn" ++ C ++ startTagOf "Pinterest" ++ D = startTagOf "Facebook" ++ (A ++ (startTagOf "X (Twitter)" ++ (B ++ (startTagOf "LinkedIn" ++ (C ++ (startTagOf "Pinterest" ++ D)))))) := by
    simp [List.append_assoc]
  rw [hassoc]
  have hX3 : startTagOf "Facebook" ++ (A ++ (startTagOf "X (Twitter)" ++ (B ++ (startTagOf "LinkedIn" ++ (C ++ (startTagOf "Pinterest" ++ D)))))) = ((startTagOf "Facebook" ++ A) ++ startTagOf "X (Twitter)") ++ (B ++ (startTagOf "LinkedIn" ++ (C ++ (startTagOf "Pinterest" ++ D)))) := by
    simp [List.append_assoc]
  have hX5 : startTagOf "Facebook" ++ (A ++ (startTagOf "X (Twitter)" ++ (B ++ (startTagOf "LinkedIn" ++ (C ++ (startTagOf "Pinterest" ++ D)))))) = ((((startTagOf "Facebook" ++ A) ++ startTagOf "X (Twitter)") ++ B) ++ startTagOf "LinkedIn") ++ (C ++ (startTagOf "Pinterest" ++ D)) := by
    simp [List.append_assoc]
  have hX7 : startTagOf "Facebook" ++ (A ++ (startTagOf "X (Twitter)" ++ (B ++ (startTagOf "LinkedIn" ++ (C ++ (startTagOf "Pinterest" ++ D)))))) = (((((startTagOf "Facebook" ++ A) ++ startTagOf "X (Twitter)") ++ B) ++ startTagOf "LinkedIn") ++ C) ++ startTagOf "Pinterest" ++ D := by
    simp [List.append_assoc]
  have la3 : (startTagOf "Facebook").length + A.length + (startTagOf "X (Twitter)").length = ((startTagOf "Facebook" ++ A) ++ startTagOf "X (Twitter)").length := by
    simp only [List.length_append]
    try omega
  have la5 : (startTagOf "Facebook").length + A.length + (startTagOf "X (Twitter)").length + B.length + (startTagOf "LinkedIn").length = ((((startTagOf "Facebook" ++ A) ++ startTagOf "X (Twitter)") ++ B) ++ startTagOf "LinkedIn").length := by
    simp only [List.length_append]
    try omega
  have la7 : (startTagOf "Facebook").length + A.length + (startTagOf "X (Twitter)").length + B.length + (startTagOf "LinkedIn").length + C.length + (startTagOf "Pinterest").length = ((((((startTagOf "Facebook" ++ A) ++ startTagOf "X (Twitter)") ++ B) ++ startTagOf "LinkedIn") ++ C) ++ startTagOf "Pinterest").length := by
    simp only [List.length_append]
    try omega
  have PF : parsePlatform (startTagOf "Facebook" ++ (A ++ (startTagOf "X (Twitter)" ++ (B ++ (startTagOf "LinkedIn" ++ (C ++ (startTagOf "Pinterest" ++ D))))))) "Facebook" = some (stripChars A) := by
    unfold parsePlatform
    rw [E1, if_neg (by decide : ¬ (((0 : Nat) : Int) = -1))]
    rw [Int.toNat_natCast, Nat.zero_add, if_neg (by decide : ¬ ("Facebook" : String) = "Pinterest")]
    rw [E2, pySlice_mid (startTagOf "Facebook") A (startTagOf "X (Twitter)" ++ (B ++ (startTagOf "LinkedIn" ++ (C ++ (startTagOf "Pinterest" ++ D)))))]
  have PX : parsePlatform (startTagOf "Facebook" ++ (A ++ (startTagOf "X (Twitter)" ++ (B ++ (startTagOf "LinkedIn" ++ (C ++ (startTagOf "Pinterest" ++ D))))))) "X (Twitter)" = some (stripChars B) := by
    unfold parsePlatform
    rw [E3, if_neg (by omega : ¬ ((((startTagOf "Facebook").length + A.length : Nat) : Int) = -1))]
    rw [Int.toNat_natCast, if_neg (by decide : ¬ ("X (Twitter)" : String) = "Pinterest")]
    rw [E4]
    have hsl := pySlice_mid ((startTagOf "Facebook" ++ A) ++ startTagOf "X (Twitter)") B (startTagOf "LinkedIn" ++ (C ++ (startTagOf "Pinterest" ++ D)))
    rw [← hX3] at hsl
    rw [← la3] at hsl
    rw [hsl]
  have PL : parsePlatform (startTagOf "Facebook" ++ (A ++ (startTagOf "X (Twitter)" ++ (B ++ (startTagOf "LinkedIn" ++ (C ++ (startTagOf "Pinterest" ++ D))))))) "LinkedIn" = some (stripChars C) := by
    unfold parsePlatform
    rw [E5, if_neg (by omega : ¬ ((((startTagOf "Facebook").length + A.length + (startTagOf "X (Twitter)").length + B.length : Nat) : Int) = -1))]
    rw [Int.toNat_natCast, if_neg (by decide : ¬ ("LinkedIn" : String) = "Pinterest")]
    rw [E6]
    have hsl := pySlice_mid ((((startTagOf "Facebook" ++ A) ++ startTagOf "X (Twitter)") ++ B) ++ startTagOf "LinkedIn") C (startTagOf "Pinterest" ++ D)
    rw [← hX5] at hsl
    rw [← la5] at hsl
    rw [hsl]
  have PP : parsePlatform (startTagOf "Facebook" ++ (A ++ (startTagOf "X (Twitter)" ++ (B ++ (startTagOf "LinkedIn" ++ (C ++ (startTagOf "Pinterest" ++ D))))))) "Pinterest" = some (stripChars D) := by
    unfold parsePlatform
    rw [E7, if_neg (by omega : ¬ ((((startTagOf "Facebook").length + A.length + (startTagOf "X (Twitter)").length + B.length + (startTagOf "LinkedIn").length + C.length : Nat) : Int) = -1))]
    rw [Int.toNat_natCast, if_pos (rfl : ("Pinterest" : String) = "Pinterest")]
    have hsl := pySlice_to_end (((((((startTagOf "Facebook" ++ A) ++ startTagOf "X (Twitter)") ++ B) ++ startTagOf "LinkedIn") ++ C) ++ startTagOf "Pinterest")) D
    rw [← hX7] at hsl
    rw [← la7] at hsl
    rw [hsl]
  unfold parseSections platforms
  simp [List.filterMap_cons, List.filterMap_nil, PF, PX, PL, PP]

theorem parser_roundtrip_witness :
    NoSharps "\nA\n".data ∧ NoSharps "\nB\n".data ∧ NoSharps "\nC\n".data
    ∧ parseSections (startTagOf "Facebook" ++ "\nA\n".data ++ startTagOf "X (Twitter)"
        ++ "\nB\n".data ++ startTagOf "LinkedIn" ++ "\nC\n".data
        ++ startTagOf "Pinterest" ++ "\nD\n".data)
      = [("Facebook", stripChars "\nA\n".data), ("X (Twitter)", stripChars "\nB\n".data),
         ("LinkedIn", stripChars "\nC\n".data), ("Pinterest", stripChars "\nD\n".data)] := by
  refine ⟨by decide, by decide, by decide, ?_⟩
  exact parser_roundtrip "\nA\n".data "\nB\n".data "\nC\n".data "\nD\n".data
    (by decide) (by decide) (by decide)
